import Mathlib

/-!
Shallow embedding of the go-threads net server replication core
(`net/server.go` handlers together with the `net/util` semaphore pool).

External collaborators (logstore, CBOR codec, libp2p crypto, pubsub) are
modelled as an oracle structure `Env` of pure functions; handler side
effects (status-registry emissions, call-queue scheduling, store writes)
are collected in an `Effects` trace returned next to the gRPC result.
-/

set_option maxHeartbeats 1000000

namespace GoThreads

abbrev ThreadID := Nat
abbrev LogID := Nat
abbrev PeerID := Nat
abbrev PubKeyT := Nat
abbrev SigT := Nat
abbrev KeyBytes := List Nat
abbrev Payload := List Nat
abbrev Addr := Nat

/-- Errors surfaced by the external logstore / codec / record-fetch calls.
`threadNotFound` models `lstore.ErrThreadNotFound`, `offsetMissing` models
`ErrOffsetIsMissing`; `other` stands for any remaining error value. -/
inductive Err
  | threadNotFound
  | offsetMissing
  | other
deriving DecidableEq, Repr

/-- gRPC status codes used by the handlers. -/
inductive Code
  | invalidArgument
  | unauthenticated
  | notFound
  | internal
deriving DecidableEq, Repr

/-- A handler failure: either a coded gRPC status error or a raw Go error
returned without a status code (as in `return nil, err`). -/
inductive HandlerErr
  | grpc (c : Code)
  | raw (e : Err)
deriving DecidableEq, Repr

/-- Thread-status registry transitions used by these handlers. -/
inductive TStatus
  | downloadStarted
  | downloadDone
  | downloadFailed
  | uploadDone
deriving DecidableEq, Repr

/-- Call-queue priority (`callPriorityLow` / `callPriorityHigh`). -/
inductive Priority
  | low
  | high
deriving DecidableEq, Repr

/-- Identity of the function scheduled on a call queue:
`updateLogsFromPeer`, `updateRecordsFromPeer`, or the anonymous combined
closure in `ExchangeEdges` that updates logs and then subscribes pubsub. -/
inductive FnId
  | updateLogsFromPeer
  | updateRecordsFromPeer
  | updateLogsThenSubscribe
deriving DecidableEq, Repr

/-- `thread.LogInfo`: id, public key, addresses, head CID
(`none` = `cid.Undef`, the empty log). -/
structure LogInfo where
  id : LogID
  pubKey : PubKeyT
  addrs : List Addr
  head : Option Nat
deriving DecidableEq, Repr

/-- `thread.Key`: service key and optional read key. -/
structure KeySet where
  service : Option KeyBytes := none
  read : Option KeyBytes := none
deriving DecidableEq, Repr

/-- `thread.Key.Defined`: a service key is present. -/
def KeySet.defined (k : KeySet) : Bool := k.service.isSome

/-- `thread.Key.CanRead`: a read key is present. -/
def KeySet.canRead (k : KeySet) : Bool := k.read.isSome

/-- `thread.Info` as used by the handlers (key set and logs). -/
structure ThreadInfo where
  key : KeySet := {}
  logs : List LogInfo := []
deriving DecidableEq, Repr

/-- A decoded record; the handlers only inspect its CID, signature checking
is delegated to the oracle. -/
structure Rec where
  cid : Nat
deriving DecidableEq, Repr

/-- Wire-form record (`netpb.Log_Record`). -/
structure LogRecord where
  recordNode : Nat
  eventNode : Nat
  headerNode : Nat
  bodyNode : Nat
deriving DecidableEq, Repr

/-- API-form record (`apipb.Record`). -/
structure ApiRecord where
  recordNode : Nat
  eventNode : Nat
  headerNode : Nat
  bodyNode : Nat
deriving DecidableEq, Repr

/-- `RecFromServiceRec` from `net/util`. -/
def RecFromServiceRec (r : LogRecord) : ApiRecord :=
  { recordNode := r.recordNode, eventNode := r.eventNode
    headerNode := r.headerNode, bodyNode := r.bodyNode }

/-- `RecToServiceRec` from `net/util`. -/
def RecToServiceRec (r : ApiRecord) : LogRecord :=
  { recordNode := r.recordNode, eventNode := r.eventNode
    headerNode := r.headerNode, bodyNode := r.bodyNode }

/-- Request header: public key plus detached signature. -/
structure Header where
  pubKey : PubKeyT
  signature : SigT
deriving DecidableEq, Repr

/-- `util.LogHead`: an (offset/head CID, log id) pair. -/
structure LogHead where
  head : Option Nat
  logID : LogID
deriving DecidableEq, Repr

/-- Wire-form log descriptor (`pb.Log`). -/
structure PBLog where
  id : LogID
  pubKey : PubKeyT
  addrs : List Addr
  head : Option Nat
deriving DecidableEq, Repr

/-- `logToProto`. -/
def logToProto (l : LogInfo) : PBLog :=
  { id := l.id, pubKey := l.pubKey, addrs := l.addrs, head := l.head }

/-- `logFromProto`. -/
def logFromProto (l : PBLog) : LogInfo :=
  { id := l.id, pubKey := l.pubKey, addrs := l.addrs, head := l.head }

/-- `minInt` from the source. -/
def minInt (x y : Nat) : Nat := if x < y then x else y

/-- Oracle for all external collaborators of the server: the logstore,
the CBOR record codec, libp2p crypto, the heads-edge hash, the status
registry presence flag and the `MaxPullLimit` constant. -/
structure Env where
  serviceKey : ThreadID → Except Err (Option KeyBytes)
  addrsEdge : ThreadID → Except Err Nat
  headsEdge : ThreadID → Except Err Nat
  getThread : ThreadID → Except Err ThreadInfo
  pubKey : ThreadID → LogID → Except Err (Option PubKeyT)
  addServiceKey : ThreadID → KeyBytes → Except Err Unit
  addReadKey : ThreadID → KeyBytes → Except Err Unit
  createExternalLogsIfNotExist : ThreadID → List LogInfo → Except Err Unit
  isKnown : Nat → Except Err Bool
  putRecord : ThreadID → LogID → Rec → Except Err Unit
  getLocalRecords : ThreadID → LogID → Option Nat → Nat → Except Err (List Rec)
  recordToProto : Rec → Except Err LogRecord
  recordFromProto : LogRecord → Option KeyBytes → Except Err Rec
  verifyRecord : Rec → PubKeyT → Bool
  pubKeyVerify : PubKeyT → Payload → SigT → Except Err Bool
  idFromPublicKey : PubKeyT → Except Err PeerID
  computeHeadsEdge : List LogHead → Nat
  tStatPresent : Bool
  maxPullLimit : Nat

/-- Trace of the externally visible side effects a handler performs:
status-registry emissions, call-queue `Schedule` invocations on the two
queues, and store/record writes. -/
structure Effects where
  statuses : List (PeerID × ThreadID × TStatus) := []
  schedGetLogs : List (PeerID × ThreadID × Priority × FnId) := []
  schedGetRecords : List (PeerID × ThreadID × Priority × FnId) := []
  putRecordCalls : List (ThreadID × LogID × Rec) := []
  addedServiceKeys : List (ThreadID × KeyBytes) := []
  addedReadKeys : List (ThreadID × KeyBytes) := []
  createdLogs : List (ThreadID × List LogInfo) := []
  fetchCalls : List (ThreadID × LogID × Option Nat × Nat) := []
deriving DecidableEq, Repr

def Effects.app (a b : Effects) : Effects where
  statuses := a.statuses ++ b.statuses
  schedGetLogs := a.schedGetLogs ++ b.schedGetLogs
  schedGetRecords := a.schedGetRecords ++ b.schedGetRecords
  putRecordCalls := a.putRecordCalls ++ b.putRecordCalls
  addedServiceKeys := a.addedServiceKeys ++ b.addedServiceKeys
  addedReadKeys := a.addedReadKeys ++ b.addedReadKeys
  createdLogs := a.createdLogs ++ b.createdLogs
  fetchCalls := a.fetchCalls ++ b.fetchCalls

instance : Append Effects := ⟨Effects.app⟩

@[simp] theorem Effects.app_statuses (a b : Effects) :
    (a ++ b).statuses = a.statuses ++ b.statuses := rfl

@[simp] theorem Effects.app_schedGetLogs (a b : Effects) :
    (a ++ b).schedGetLogs = a.schedGetLogs ++ b.schedGetLogs := rfl

@[simp] theorem Effects.app_schedGetRecords (a b : Effects) :
    (a ++ b).schedGetRecords = a.schedGetRecords ++ b.schedGetRecords := rfl

@[simp] theorem Effects.app_putRecordCalls (a b : Effects) :
    (a ++ b).putRecordCalls = a.putRecordCalls ++ b.putRecordCalls := rfl

@[simp] theorem Effects.app_fetchCalls (a b : Effects) :
    (a ++ b).fetchCalls = a.fetchCalls ++ b.fetchCalls := rfl

/-- `verifyRequest` (body-presence check aside, which the handlers perform
on the optional body before calling this): marshal the body, verify the
header signature over the payload, derive the caller peer id. -/
def verifyRequest (env : Env) (hdr : Option Header) (marshalled : Except Err Payload) :
    Except HandlerErr PeerID :=
  match hdr with
  | none => .error (.grpc .invalidArgument)
  | some h =>
    match marshalled with
    | .error _ => .error (.grpc .internal)
    | .ok payload =>
      match env.pubKeyVerify h.pubKey payload h.signature with
      | .ok true =>
        match env.idFromPublicKey h.pubKey with
        | .ok pid => .ok pid
        | .error _ => .error (.grpc .invalidArgument)
      | .ok false => .error (.grpc .unauthenticated)
      | .error _ => .error (.grpc .unauthenticated)

/-- `server.checkServiceKey`: nil supplied key fails unauthenticated; a
store failure is internal; a missing local key is not-found; a bytewise
mismatch is unauthenticated. -/
def checkServiceKey (env : Env) (id : ThreadID) (k : Option KeyBytes) :
    Except HandlerErr Unit :=
  match k with
  | none => .error (.grpc .unauthenticated)
  | some kk =>
    match env.serviceKey id with
    | .error _ => .error (.grpc .internal)
    | .ok none => .error (.grpc .notFound)
    | .ok (some sk) =>
      if kk = sk then .ok () else .error (.grpc .unauthenticated)

/-- A counting `Semaphore` over a capacity-bounded channel of unit tokens:
`held` is the number of buffered tokens, i.e. of unreleased acquires. -/
structure Semaphore where
  capacity : Nat
  held : Nat
deriving DecidableEq, Repr

/-- `NewSemaphore`. -/
def NewSemaphore (capacity : Nat) : Semaphore := { capacity, held := 0 }

/-- Non-blocking `TryAcquire`: the channel send succeeds iff a buffer slot
is free. -/
def Semaphore.tryAcquire (s : Semaphore) : Bool × Semaphore :=
  if s.held < s.capacity then (true, { s with held := s.held + 1 }) else (false, s)

/-- Outcome of `Semaphore.Release`: either the updated semaphore or the
panic (`"release before acquire"`). -/
inductive ReleaseResult
  | ok (s : Semaphore)
  | panicked
deriving DecidableEq, Repr

/-- `Semaphore.Release`: the non-blocking receive succeeds iff a token is
buffered, otherwise the default branch panics. -/
def Semaphore.release (s : Semaphore) : ReleaseResult :=
  if 0 < s.held then .ok { s with held := s.held - 1 } else .panicked

instance {ε α : Type} [DecidableEq ε] [DecidableEq α] : DecidableEq (Except ε α) :=
  fun x y =>
    match x, y with
    | .error a, .error b =>
      if h : a = b then .isTrue (by rw [h]) else .isFalse (by simp [h])
    | .ok a, .ok b =>
      if h : a = b then .isTrue (by rw [h]) else .isFalse (by simp [h])
    | .error _, .ok _ => .isFalse (by simp)
    | .ok _, .error _ => .isFalse (by simp)

/-- `GetLogsRequest.Body`; `marshalled` models the outcome of the proto
canonical encoding `body.Marshal()`. -/
structure GetLogsBody where
  threadID : ThreadID
  serviceKey : Option KeyBytes
  marshalled : Except Err Payload
deriving DecidableEq, Repr

structure GetLogsRequest where
  header : Option Header
  body : Option GetLogsBody
deriving DecidableEq, Repr

structure GetLogsReply where
  logs : List PBLog := []
deriving DecidableEq, Repr

/-- `server.GetLogs`: verify, authorize via `checkServiceKey`, then return
every local log of the thread in wire form. -/
def GetLogs (env : Env) (req : GetLogsRequest) :
    Except HandlerErr GetLogsReply × Effects :=
  match req.body with
  | none => (.error (.grpc .invalidArgument), {})
  | some body =>
    match verifyRequest env req.header body.marshalled with
    | .error e => (.error e, {})
    | .ok _ =>
      match checkServiceKey env body.threadID body.serviceKey with
      | .error e => (.error e, {})
      | .ok _ =>
        match env.getThread body.threadID with
        | .error _ => (.error (.grpc .internal), {})
        | .ok info => (.ok { logs := info.logs.map logToProto }, {})

/-- `PushLogRequest.Body`. -/
structure PushLogBody where
  threadID : ThreadID
  log : PBLog
  serviceKey : Option KeyBytes
  readKey : Option KeyBytes
  marshalled : Except Err Payload
deriving DecidableEq, Repr

structure PushLogRequest where
  header : Option Header
  body : Option PushLogBody
deriving DecidableEq, Repr

structure PushLogReply
deriving DecidableEq, Repr

/-- The `GetThread` call at the top of `PushLog`: `ErrThreadNotFound` is
tolerated and yields the zero-valued `thread.Info`; any other store error
is an internal status error. -/
def pushLogThreadInfo (env : Env) (tid : ThreadID) : Except HandlerErr ThreadInfo :=
  match env.getThread tid with
  | .ok info => .ok info
  | .error .threadNotFound => .ok {}
  | .error _ => .error (.grpc .internal)

/-- The key-uptake block of `PushLog` (lines guarded by `info.Key.Defined`
and `info.Key.CanRead`); the effect trace records the store write calls. -/
def pushLogKeyUptake (env : Env) (tid : ThreadID) (body : PushLogBody)
    (info : ThreadInfo) : Except HandlerErr Unit × Effects :=
  if !info.key.defined then
    match body.serviceKey with
    | some sk =>
      match env.addServiceKey tid sk with
      | .ok _ => (.ok (), { addedServiceKeys := [(tid, sk)] })
      | .error _ => (.error (.grpc .internal), { addedServiceKeys := [(tid, sk)] })
    | none => (.error (.grpc .notFound), {})
  else if !info.key.canRead then
    match body.readKey with
    | some rk =>
      match env.addReadKey tid rk with
      | .ok _ => (.ok (), { addedReadKeys := [(tid, rk)] })
      | .error _ => (.error (.grpc .internal), { addedReadKeys := [(tid, rk)] })
    | none => (.ok (), {})
  else (.ok (), {})

/-- `server.PushLog`: verify, pick up missing keys, upsert the log via
`createExternalLogsIfNotExist`, then schedule a low-priority
`updateRecordsFromPeer` on the get-records call queue and reply. -/
def PushLog (env : Env) (req : PushLogRequest) :
    Except HandlerErr PushLogReply × Effects :=
  match req.body with
  | none => (.error (.grpc .invalidArgument), {})
  | some body =>
    match verifyRequest env req.header body.marshalled with
    | .error e => (.error e, {})
    | .ok pid =>
      match pushLogThreadInfo env body.threadID with
      | .error e => (.error e, {})
      | .ok info =>
        match pushLogKeyUptake env body.threadID body info with
        | (.error e, eff) => (.error e, eff)
        | (.ok _, eff) =>
          match env.createExternalLogsIfNotExist body.threadID [logFromProto body.log] with
          | .error _ =>
            (.error (.grpc .internal),
             eff ++ { createdLogs := [(body.threadID, [logFromProto body.log])] })
          | .ok _ =>
            (.ok {},
             eff ++ { createdLogs := [(body.threadID, [logFromProto body.log])],
                      schedGetRecords := [(pid, body.threadID, .low, .updateRecordsFromPeer)] })

/-- One `logs[{logID, offset, limit}]` entry of a `GetRecordsRequest`. -/
structure ReqLogEntry where
  logID : LogID
  offset : Option Nat
  limit : Nat
deriving DecidableEq, Repr

/-- `GetRecordsRequest.Body`. -/
structure GetRecordsBody where
  threadID : ThreadID
  serviceKey : Option KeyBytes
  logs : List ReqLogEntry
  marshalled : Except Err Payload
deriving DecidableEq, Repr

structure GetRecordsRequest where
  header : Option Header
  body : Option GetRecordsBody
deriving DecidableEq, Repr

/-- One `logs[{logID, records[], log?}]` entry of a `GetRecordsReply`. -/
structure ReplyEntry where
  logID : LogID
  records : List LogRecord
  log : Option PBLog
deriving DecidableEq, Repr

structure GetRecordsReply where
  logs : List ReplyEntry := []
deriving DecidableEq, Repr

/-- The `reqd` map of `GetRecords`, built with Go map semantics (a later
entry for the same log id overwrites an earlier one). -/
def reqdLookup (logs : List ReqLogEntry) (lid : LogID) : Option ReqLogEntry :=
  logs.reverse.find? (fun l => l.logID == lid)

/-- The request heads of `headsChanged`, one `util.LogHead` per requested
log entry. -/
def reqLogHeads (body : GetRecordsBody) : List LogHead :=
  body.logs.map (fun l => { head := l.offset, logID := l.logID })

/-- `server.headsChanged`: compare the edge computed from the requested
offsets with the stored heads edge; a missing heads edge counts as
changed. -/
def headsChanged (env : Env) (body : GetRecordsBody) : Except Err Bool :=
  match env.headsEdge body.threadID with
  | .ok currEdge => .ok (env.computeHeadsEdge (reqLogHeads body) != currEdge)
  | .error .threadNotFound => .ok true
  | .error e => .error e

/-- The offset, limit and optional reply descriptor chosen for one local
log in `GetRecords` (lines picking `opts` from `reqd`). -/
structure LogQuery where
  offset : Option Nat
  limit : Nat
  pblg : Option PBLog
deriving DecidableEq, Repr

def logQueryParams (reqd : List ReqLogEntry) (logRecordLimit : Nat)
    (lg : LogInfo) : LogQuery :=
  match reqdLookup reqd lg.id with
  | some opts => { offset := opts.offset, limit := minInt opts.limit logRecordLimit, pblg := none }
  | none => { offset := none, limit := logRecordLimit, pblg := some (logToProto lg) }

/-- The proto-conversion loop over fetched records: stops at the first
failing record, keeping the prefix converted so far; the flag reports
whether a failure occurred. -/
def convertRecords (env : Env) : List Rec → List LogRecord × Bool
  | [] => ([], false)
  | r :: rs =>
    match env.recordToProto r with
    | .error _ => ([], true)
    | .ok pr =>
      let (prs, f) := convertRecords env rs
      (pr :: prs, f)

/-- The per-log task body of `GetRecords`: fetch local records, count a
failure on fetch or conversion error, schedule a high-priority record
update when the requested offset is missing, and build the reply entry
unless the log has no descriptor to report and no records. -/
def getRecordsLogStep (env : Env) (pid : PeerID) (tid : ThreadID)
    (reqd : List ReqLogEntry) (logRecordLimit : Nat) (lg : LogInfo) :
    Option ReplyEntry × Nat × Effects :=
  let q := logQueryParams reqd logRecordLimit lg
  let fetchEff : Effects := { fetchCalls := [(tid, lg.id, q.offset, q.limit)] }
  match env.getLocalRecords tid lg.id q.offset q.limit with
  | .error e =>
    let schedEff : Effects :=
      if e = .offsetMissing then
        { schedGetRecords := [(pid, tid, .high, .updateRecordsFromPeer)] }
      else {}
    match q.pblg with
    | none => (none, 1, fetchEff ++ schedEff)
    | some l => (some { logID := lg.id, records := [], log := some l }, 1, fetchEff ++ schedEff)
  | .ok recs =>
    let (prs, convFailed) := convertRecords env recs
    let f := if convFailed then 1 else 0
    if q.pblg = none ∧ prs = [] then (none, f, fetchEff)
    else (some { logID := lg.id, records := prs, log := q.pblg }, f, fetchEff)

/-- The fan-out over local logs in `GetRecords`, sequentialized: reply
entries, total failure count, accumulated effects. -/
def getRecordsLoop (env : Env) (pid : PeerID) (tid : ThreadID)
    (reqd : List ReqLogEntry) (logRecordLimit : Nat) :
    List LogInfo → List ReplyEntry × Nat × Effects
  | [] => ([], 0, {})
  | lg :: rest =>
    let (e, f, eff) := getRecordsLogStep env pid tid reqd logRecordLimit lg
    let (es, fs, effs) := getRecordsLoop env pid tid reqd logRecordLimit rest
    (e.toList ++ es, f + fs, eff ++ effs)

/-- `server.GetRecords`: verify, authorize, fast-path on unchanged heads,
then fan out over the local logs with a per-log limit of
`MaxPullLimit / numLogs` and emit `UploadDone` when nothing failed. -/
def GetRecords (env : Env) (req : GetRecordsRequest) :
    Except HandlerErr GetRecordsReply × Effects :=
  match req.body with
  | none => (.error (.grpc .invalidArgument), {})
  | some body =>
    match verifyRequest env req.header body.marshalled with
    | .error e => (.error e, {})
    | .ok pid =>
      match checkServiceKey env body.threadID body.serviceKey with
      | .error e => (.error e, {})
      | .ok _ =>
        match headsChanged env body with
        | .error e => (.error (.raw e), {})
        | .ok false => (.ok {}, {})
        | .ok true =>
          match env.getThread body.threadID with
          | .error e => (.error (.raw e), {})
          | .ok info =>
            if info.logs = [] then (.ok {}, {})
            else
              let logRecordLimit := env.maxPullLimit / info.logs.length
              let (entries, failures, eff) :=
                getRecordsLoop env pid body.threadID body.logs logRecordLimit info.logs
              if env.tStatPresent && failures == 0 then
                (.ok { logs := entries },
                 eff ++ { statuses := [(pid, body.threadID, .uploadDone)] })
              else (.ok { logs := entries }, eff)

/-- `PushRecordRequest.Body`. -/
structure PushRecordBody where
  threadID : ThreadID
  logID : LogID
  record : LogRecord
  marshalled : Except Err Payload
deriving DecidableEq, Repr

structure PushRecordRequest where
  header : Option Header
  body : Option PushRecordBody
deriving DecidableEq, Repr

structure PushRecordReply
deriving DecidableEq, Repr

/-- `server.PushRecord`: require a known log, decode under the service
key, short-circuit with `DownloadDone` on a known CID, verify the record
signature, then emit `DownloadStarted` and insert via `PutRecord`,
finishing with `DownloadFailed` or `DownloadDone`. -/
def PushRecord (env : Env) (req : PushRecordRequest) :
    Except HandlerErr PushRecordReply × Effects :=
  match req.body with
  | none => (.error (.grpc .invalidArgument), {})
  | some body =>
    match verifyRequest env req.header body.marshalled with
    | .error e => (.error e, {})
    | .ok pid =>
      let tid := body.threadID
      match env.pubKey tid body.logID with
      | .error _ => (.error (.grpc .internal), {})
      | .ok none => (.error (.grpc .notFound), {})
      | .ok (some logpk) =>
        match env.serviceKey tid with
        | .error _ => (.error (.grpc .internal), {})
        | .ok key =>
          match env.recordFromProto body.record key with
          | .error _ => (.error (.grpc .internal), {})
          | .ok rec =>
            match env.isKnown rec.cid with
            | .error _ => (.error (.grpc .internal), {})
            | .ok true =>
              (.ok {},
               { statuses := if env.tStatPresent then [(pid, tid, .downloadDone)] else [] })
            | .ok false =>
              if env.verifyRecord rec logpk then
                let started : List (PeerID × ThreadID × TStatus) :=
                  if env.tStatPresent then [(pid, tid, .downloadStarted)] else []
                match env.putRecord tid body.logID rec with
                | .error _ =>
                  (.error (.grpc .internal),
                   { statuses :=
                       started ++ (if env.tStatPresent then [(pid, tid, .downloadFailed)] else []),
                     putRecordCalls := [(tid, body.logID, rec)] })
                | .ok _ =>
                  (.ok {},
                   { statuses :=
                       started ++ (if env.tStatPresent then [(pid, tid, .downloadDone)] else []),
                     putRecordCalls := [(tid, body.logID, rec)] })
              else (.error (.grpc .unauthenticated), {})

/-- One `threads[{threadID, addressEdge, headsEdge}]` entry of an
`ExchangeEdgesRequest`. -/
structure EdgeEntry where
  threadID : ThreadID
  addressEdge : Nat
  headsEdge : Nat
deriving DecidableEq, Repr

/-- `ExchangeEdgesRequest.Body`. -/
structure ExchangeEdgesBody where
  threads : List EdgeEntry
  marshalled : Except Err Payload
deriving DecidableEq, Repr

structure ExchangeEdgesRequest where
  header : Option Header
  body : Option ExchangeEdgesBody
deriving DecidableEq, Repr

/-- One reply edge; proto scalar fields default to zero when the thread
does not exist locally. -/
structure ReplyEdge where
  threadID : ThreadID
  threadExists : Bool
  addressEdge : Nat := 0
  headsEdge : Nat := 0
deriving DecidableEq, Repr

structure ExchangeEdgesReply where
  edges : List ReplyEdge := []
deriving DecidableEq, Repr

/-- Sentinel errors of `server.localEdges`. -/
inductive EdgesErr
  | noAddrsEdge
  | noHeadsEdge
  | other (e : Err)
deriving DecidableEq, Repr

/-- `server.localEdges`: address edge first (thread-not-found becomes
`errNoAddrsEdge`), then heads edge (thread-not-found becomes
`errNoHeadsEdge`). -/
def localEdges (env : Env) (tid : ThreadID) : Except EdgesErr (Nat × Nat) :=
  match env.addrsEdge tid with
  | .error .threadNotFound => .error .noAddrsEdge
  | .error e => .error (.other e)
  | .ok a =>
    match env.headsEdge tid with
    | .error .threadNotFound => .error .noHeadsEdge
    | .error e => .error (.other e)
    | .ok h => .ok (a, h)

/-- The per-entry switch of `ExchangeEdges`. -/
def exchangeEdgesStep (env : Env) (pid : PeerID) (entry : EdgeEntry) :
    Except Err (ReplyEdge × Effects) :=
  let tid := entry.threadID
  match localEdges env tid with
  | .ok (a, h) =>
    let logsEff : Effects :=
      if a ≠ entry.addressEdge then
        { schedGetLogs := [(pid, tid, .low, .updateLogsFromPeer)] }
      else {}
    let recsEff : Effects :=
      if h ≠ entry.headsEdge then
        { schedGetRecords := [(pid, tid, .low, .updateRecordsFromPeer)] }
      else if env.tStatPresent then
        { statuses := [(pid, tid, .downloadDone), (pid, tid, .uploadDone)] }
      else {}
    .ok ({ threadID := tid, threadExists := true, addressEdge := a, headsEdge := h },
         logsEff ++ recsEff)
  | .error .noAddrsEdge =>
    .ok ({ threadID := tid, threadExists := false },
         { schedGetLogs := [(pid, tid, .high, .updateLogsThenSubscribe)] })
  | .error .noHeadsEdge =>
    .ok ({ threadID := tid, threadExists := false },
         { schedGetRecords := [(pid, tid, .low, .updateRecordsFromPeer)] })
  | .error (.other e) => .error e

/-- The loop of `ExchangeEdges` over requested entries; an error aborts
the reply but effects of earlier entries have already happened. -/
def exchangeEdgesLoop (env : Env) (pid : PeerID) :
    List EdgeEntry → Except Err (List ReplyEdge) × Effects
  | [] => (.ok [], {})
  | e :: rest =>
    match exchangeEdgesStep env pid e with
    | .error err => (.error err, {})
    | .ok (rep, eff) =>
      let (r, effs) := exchangeEdgesLoop env pid rest
      (r.map (rep :: ·), eff ++ effs)

/-- `server.ExchangeEdges`. -/
def ExchangeEdges (env : Env) (req : ExchangeEdgesRequest) :
    Except HandlerErr ExchangeEdgesReply × Effects :=
  match req.body with
  | none => (.error (.grpc .invalidArgument), {})
  | some body =>
    match verifyRequest env req.header body.marshalled with
    | .error e => (.error e, {})
    | .ok pid =>
      match exchangeEdgesLoop env pid body.threads with
      | (.error e, eff) => (.error (.raw e), eff)
      | (.ok reps, eff) => (.ok { edges := reps }, eff)

/-! ### Concrete environments and requests used to instantiate theorems -/

def envBase : Env where
  serviceKey := fun _ => .ok (some [1, 2, 3])
  addrsEdge := fun _ => .ok 5
  headsEdge := fun _ => .ok 9
  getThread := fun _ => .ok {}
  pubKey := fun _ _ => .ok (some 4)
  addServiceKey := fun _ _ => .ok ()
  addReadKey := fun _ _ => .ok ()
  createExternalLogsIfNotExist := fun _ _ => .ok ()
  isKnown := fun _ => .ok true
  putRecord := fun _ _ _ => .ok ()
  getLocalRecords := fun _ _ _ _ => .ok []
  recordToProto := fun r => .ok { recordNode := r.cid, eventNode := 0, headerNode := 0, bodyNode := 0 }
  recordFromProto := fun r _ => .ok { cid := r.recordNode }
  verifyRecord := fun _ _ => true
  pubKeyVerify := fun _ _ _ => .ok true
  idFromPublicKey := fun pk => .ok pk
  computeHeadsEdge := fun hs => hs.length
  tStatPresent := true
  maxPullLimit := 10

def envNoLocalKey : Env := { envBase with serviceKey := fun _ => .ok none }

def envNoAddrs : Env := { envBase with addrsEdge := fun _ => .error .threadNotFound }

def envNoHeads : Env := { envBase with headsEdge := fun _ => .error .threadNotFound }

def hdr7 : Header := { pubKey := 7, signature := 1 }

/-! ### C9 — semaphore release -/

/-- C9: `Semaphore.Release` panics (`release before acquire`) exactly when
the number of unreleased prior acquires is zero, and under the
precondition that at least one acquire is outstanding the panic branch is
unreachable and a token is returned. -/
theorem semaphore_release_panics_iff_not_held (s : Semaphore) :
    (s.release = .panicked ↔ s.held = 0) ∧
    (0 < s.held → s.release = .ok { s with held := s.held - 1 }) := by
  unfold Semaphore.release
  constructor
  · by_cases h : 0 < s.held
    · rw [if_pos h]
      constructor
      · intro hc; cases hc
      · intro h0; omega
    · rw [if_neg h]
      constructor
      · intro _; omega
      · intro _; rfl
  · intro h; rw [if_pos h]

theorem semaphore_release_witness :
    0 < (Semaphore.mk 2 1).held ∧
    (Semaphore.mk 2 1).release = .ok (Semaphore.mk 2 0) :=
  ⟨by decide, (semaphore_release_panics_iff_not_held (Semaphore.mk 2 1)).2 (by decide)⟩

/-! ### C3 — checkServiceKey -/

/-- C3 (amended): `checkServiceKey` succeeds iff a service key is stored
for the thread and the supplied key equals it bytewise; when a key was
supplied but none is stored it fails NotFound; when the supplied key
mismatches the stored one it fails Unauthenticated; and when no key was
supplied at all it fails Unauthenticated even if no local key exists. -/
theorem checkServiceKey_spec (env : Env) (t : ThreadID) (k : Option KeyBytes) :
    (checkServiceKey env t k = .ok () ↔
       ∃ sk, k = some sk ∧ env.serviceKey t = .ok (some sk)) ∧
    (∀ kk, k = some kk → env.serviceKey t = .ok none →
       checkServiceKey env t k = .error (.grpc .notFound)) ∧
    (∀ kk sk, k = some kk → env.serviceKey t = .ok (some sk) → kk ≠ sk →
       checkServiceKey env t k = .error (.grpc .unauthenticated)) ∧
    (k = none → checkServiceKey env t k = .error (.grpc .unauthenticated)) := by
  refine ⟨?_, ?_, ?_, ?_⟩
  · cases k with
    | none => simp [checkServiceKey]
    | some kk =>
      cases hsk : env.serviceKey t with
      | error e => simp [checkServiceKey, hsk]
      | ok o =>
        cases o with
        | none => simp [checkServiceKey, hsk]
        | some sk =>
          by_cases h : kk = sk
          · simp [checkServiceKey, hsk, h]
          · simp only [checkServiceKey, hsk]
            rw [if_neg h]
            constructor
            · intro hc; cases hc
            · rintro ⟨sk2, hk2, hv2⟩
              rw [Option.some.injEq] at hk2
              rw [hk2] at h
              cases hv2
              exact absurd rfl h
  · intro kk hk hsk
    subst hk
    simp [checkServiceKey, hsk]
  · intro kk sk hk hsk hne
    subst hk
    unfold checkServiceKey
    simp only [hsk]
    rw [if_neg hne]
  · intro hk
    subst hk
    simp [checkServiceKey]

/-- C3 counterexample: with no service key stored locally and no key
supplied by the remote, the check fails Unauthenticated, not NotFound as
the claim states for the no-local-key case. -/
theorem checkServiceKey_counterexample :
    envNoLocalKey.serviceKey 0 = .ok none ∧
    checkServiceKey envNoLocalKey 0 none ≠ .error (.grpc .notFound) := by
  exact ⟨rfl, by decide⟩

theorem checkServiceKey_spec_witness :
    checkServiceKey envBase 0 (some [1, 2, 3]) = .ok () ∧
    checkServiceKey envNoLocalKey 0 (some [1, 2, 3]) = .error (.grpc .notFound) ∧
    checkServiceKey envBase 0 (some [9]) = .error (.grpc .unauthenticated) ∧
    checkServiceKey envBase 0 none = .error (.grpc .unauthenticated) := by
  refine ⟨?_, ?_, ?_, ?_⟩
  · exact (checkServiceKey_spec envBase 0 (some [1, 2, 3])).1.mpr ⟨[1, 2, 3], rfl, rfl⟩
  · exact (checkServiceKey_spec envNoLocalKey 0 (some [1, 2, 3])).2.1 [1, 2, 3] rfl rfl
  · exact (checkServiceKey_spec envBase 0 (some [9])).2.2.1 [9] [1, 2, 3] rfl rfl (by decide)
  · exact (checkServiceKey_spec envBase 0 none).2.2.2 rfl

/-! ### C1 — PushRecord idempotence on known CIDs -/

/-- C1: a `PushRecord` whose decoded record CID is already known locally
returns the empty reply successfully, performs no `PutRecord` call, and
emits exactly `DownloadDone` for (caller, thread) when the status registry
is present (and nothing when absent). -/
theorem pushRecord_idempotent (env : Env) (req : PushRecordRequest)
    (body : PushRecordBody) (pid : PeerID) (pk : PubKeyT)
    (k : Option KeyBytes) (rec : Rec)
    (hb : req.body = some body)
    (hv : verifyRequest env req.header body.marshalled = .ok pid)
    (hpk : env.pubKey body.threadID body.logID = .ok (some pk))
    (hsk : env.serviceKey body.threadID = .ok k)
    (hdec : env.recordFromProto body.record k = .ok rec)
    (hknown : env.isKnown rec.cid = .ok true) :
    PushRecord env req =
      (.ok {},
       { statuses := if env.tStatPresent then [(pid, body.threadID, .downloadDone)] else [] }) := by
  unfold PushRecord
  simp only [hb, hv, hpk, hsk, hdec, hknown]

def pushRecordBody1 : PushRecordBody :=
  { threadID := 3, logID := 2
    record := { recordNode := 11, eventNode := 0, headerNode := 0, bodyNode := 0 }
    marshalled := .ok [1] }

def pushRecordReq1 : PushRecordRequest :=
  { header := some hdr7, body := some pushRecordBody1 }

theorem pushRecord_idempotent_witness :
    PushRecord envBase pushRecordReq1 =
      (.ok {}, { statuses := [(7, 3, .downloadDone)] }) := by
  have h := pushRecord_idempotent envBase pushRecordReq1 pushRecordBody1 7 4
    (some [1, 2, 3]) { cid := 11 } rfl rfl rfl rfl rfl rfl
  exact h.trans rfl

/-! ### C6 — PushRecord terminal statuses -/

/-- C6: once `DownloadStarted` has been emitted (registry present, record
unknown, record signature valid), exactly one terminal status follows on
each exit path: `DownloadFailed` when `PutRecord` fails (the RPC returns
Internal), `DownloadDone` just before the successful return. -/
theorem pushRecord_terminal_status (env : Env) (req : PushRecordRequest)
    (body : PushRecordBody) (pid : PeerID) (pk : PubKeyT)
    (k : Option KeyBytes) (rec : Rec)
    (hb : req.body = some body)
    (hv : verifyRequest env req.header body.marshalled = .ok pid)
    (hpk : env.pubKey body.threadID body.logID = .ok (some pk))
    (hsk : env.serviceKey body.threadID = .ok k)
    (hdec : env.recordFromProto body.record k = .ok rec)
    (hunknown : env.isKnown rec.cid = .ok false)
    (hver : env.verifyRecord rec pk = true)
    (hreg : env.tStatPresent = true) :
    (∀ e, env.putRecord body.threadID body.logID rec = .error e →
       PushRecord env req =
         (.error (.grpc .internal),
          { statuses := [(pid, body.threadID, .downloadStarted),
                         (pid, body.threadID, .downloadFailed)],
            putRecordCalls := [(body.threadID, body.logID, rec)] })) ∧
    (env.putRecord body.threadID body.logID rec = .ok () →
       PushRecord env req =
         (.ok {},
          { statuses := [(pid, body.threadID, .downloadStarted),
                         (pid, body.threadID, .downloadDone)],
            putRecordCalls := [(body.threadID, body.logID, rec)] })) := by
  constructor
  · intro e hput
    unfold PushRecord
    simp only [hb, hv, hpk, hsk, hdec, hunknown, hver, hreg, hput]
    rfl
  · intro hput
    unfold PushRecord
    simp only [hb, hv, hpk, hsk, hdec, hunknown, hver, hreg, hput]
    rfl

def envPutFails : Env :=
  { envBase with isKnown := fun _ => .ok false, putRecord := fun _ _ _ => .error .other }

def envPutOk : Env := { envBase with isKnown := fun _ => .ok false }

theorem pushRecord_terminal_status_witness :
    PushRecord envPutFails pushRecordReq1 =
      (.error (.grpc .internal),
       { statuses := [(7, 3, .downloadStarted), (7, 3, .downloadFailed)],
         putRecordCalls := [(3, 2, { cid := 11 })] }) ∧
    PushRecord envPutOk pushRecordReq1 =
      (.ok {},
       { statuses := [(7, 3, .downloadStarted), (7, 3, .downloadDone)],
         putRecordCalls := [(3, 2, { cid := 11 })] }) := by
  constructor
  · exact (pushRecord_terminal_status envPutFails pushRecordReq1 pushRecordBody1 7 4
      (some [1, 2, 3]) { cid := 11 } rfl rfl rfl rfl rfl rfl rfl rfl).1 .other rfl
  · exact (pushRecord_terminal_status envPutOk pushRecordReq1 pushRecordBody1 7 4
      (some [1, 2, 3]) { cid := 11 } rfl rfl rfl rfl rfl rfl rfl rfl).2 rfl

/-! ### C2 — ExchangeEdges per-entry behaviour -/

/-- C2: for an entry whose thread has both local edges, the reply entry is
`{exists:true}` with the local edges, a low-priority `updateLogsFromPeer`
is scheduled iff the addrs edges differ and a low-priority
`updateRecordsFromPeer` iff the heads edges differ; for an unknown thread
(no addrs edge) the reply is `{exists:false}` and the high-priority
combined update-logs-then-subscribe closure is scheduled; with addrs but
no heads the reply is `{exists:false}` and a low-priority
`updateRecordsFromPeer` is scheduled. -/
theorem exchangeEdges_entry_cases (env : Env) (pid : PeerID) (entry : EdgeEntry) :
    (∀ a h, env.addrsEdge entry.threadID = .ok a →
       env.headsEdge entry.threadID = .ok h →
       (exchangeEdgesStep env pid entry).map
           (fun p => (p.1, p.2.schedGetLogs, p.2.schedGetRecords)) =
         .ok ({ threadID := entry.threadID, threadExists := true,
                addressEdge := a, headsEdge := h },
              (if a = entry.addressEdge then []
               else [(pid, entry.threadID, .low, .updateLogsFromPeer)]),
              (if h = entry.headsEdge then []
               else [(pid, entry.threadID, .low, .updateRecordsFromPeer)]))) ∧
    (env.addrsEdge entry.threadID = .error .threadNotFound →
       exchangeEdgesStep env pid entry =
         .ok ({ threadID := entry.threadID, threadExists := false },
              { schedGetLogs := [(pid, entry.threadID, .high, .updateLogsThenSubscribe)] })) ∧
    (∀ a, env.addrsEdge entry.threadID = .ok a →
       env.headsEdge entry.threadID = .error .threadNotFound →
       exchangeEdgesStep env pid entry =
         .ok ({ threadID := entry.threadID, threadExists := false },
              { schedGetRecords := [(pid, entry.threadID, .low, .updateRecordsFromPeer)] })) := by
  refine ⟨?_, ?_, ?_⟩
  · intro a h ha hh
    unfold exchangeEdgesStep localEdges
    simp only [ha, hh]
    by_cases hA : a = entry.addressEdge <;> by_cases hH : h = entry.headsEdge <;>
      by_cases hT : env.tStatPresent <;>
        simp [hA, hH, hT, Effects.app, Except.map]
  · intro ha
    unfold exchangeEdgesStep localEdges
    simp only [ha]
  · intro a ha hh
    unfold exchangeEdgesStep localEdges
    simp only [ha, hh]

theorem exchangeEdges_entry_cases_witness :
    (exchangeEdgesStep envBase 7 { threadID := 2, addressEdge := 5, headsEdge := 8 }).map
        (fun p => (p.1, p.2.schedGetLogs, p.2.schedGetRecords)) =
      .ok ({ threadID := 2, threadExists := true, addressEdge := 5, headsEdge := 9 },
           [], [(7, 2, .low, .updateRecordsFromPeer)]) ∧
    exchangeEdgesStep envNoAddrs 7 { threadID := 2, addressEdge := 5, headsEdge := 9 } =
      .ok ({ threadID := 2, threadExists := false },
           { schedGetLogs := [(7, 2, .high, .updateLogsThenSubscribe)] }) ∧
    exchangeEdgesStep envNoHeads 7 { threadID := 2, addressEdge := 5, headsEdge := 9 } =
      .ok ({ threadID := 2, threadExists := false },
           { schedGetRecords := [(7, 2, .low, .updateRecordsFromPeer)] }) := by
  refine ⟨?_, ?_, ?_⟩
  · have h := (exchangeEdges_entry_cases envBase 7
      { threadID := 2, addressEdge := 5, headsEdge := 8 }).1 5 9 rfl rfl
    exact h.trans rfl
  · exact (exchangeEdges_entry_cases envNoAddrs 7
      { threadID := 2, addressEdge := 5, headsEdge := 9 }).2.1 rfl
  · exact (exchangeEdges_entry_cases envNoHeads 7
      { threadID := 2, addressEdge := 5, headsEdge := 9 }).2.2 5 rfl rfl

/-! ### C10 — ExchangeEdges status emission -/

/-- C10: for an entry whose thread has both local edges, `DownloadDone`
and `UploadDone` are emitted (when the registry is present) exactly when
the local heads edge equals the remote one — independently of whether the
addrs edges differ and a low-priority `updateLogsFromPeer` is scheduled at
the same time. -/
theorem exchangeEdges_status_iff_heads_equal (env : Env) (pid : PeerID)
    (entry : EdgeEntry) (a h : Nat)
    (ha : env.addrsEdge entry.threadID = .ok a)
    (hh : env.headsEdge entry.threadID = .ok h) :
    (exchangeEdgesStep env pid entry).map (fun p => (p.2.statuses, p.2.schedGetLogs)) =
      .ok ((if h = entry.headsEdge ∧ env.tStatPresent = true then
              [(pid, entry.threadID, .downloadDone), (pid, entry.threadID, .uploadDone)]
            else []),
           (if a = entry.addressEdge then []
            else [(pid, entry.threadID, .low, .updateLogsFromPeer)])) := by
  unfold exchangeEdgesStep localEdges
  simp only [ha, hh]
  by_cases hA : a = entry.addressEdge <;> by_cases hH : h = entry.headsEdge <;>
    by_cases hT : env.tStatPresent <;>
      simp [hA, hH, hT, Effects.app, Except.map]

theorem exchangeEdges_status_iff_heads_equal_witness :
    (exchangeEdgesStep envBase 7 { threadID := 2, addressEdge := 99, headsEdge := 9 }).map
        (fun p => (p.2.statuses, p.2.schedGetLogs)) =
      .ok ([(7, 2, .downloadDone), (7, 2, .uploadDone)],
           [(7, 2, .low, .updateLogsFromPeer)]) := by
  have h := exchangeEdges_status_iff_heads_equal envBase 7
    { threadID := 2, addressEdge := 99, headsEdge := 9 } 5 9 rfl rfl
  exact h.trans rfl

/-! ### C4 — GetRecords fast path -/

/-- C4: for a verified, authorized `GetRecords`, when the heads edge
computed from the caller's (logID, offset) list equals the stored heads
edge the reply is empty with no effects (in particular no per-log
fetching); and when the thread carries no heads edge locally and no local
logs exist (the store state of a thread known only by its keys), the reply
is likewise empty. -/
theorem getRecords_fast_path (env : Env) (req : GetRecordsRequest)
    (body : GetRecordsBody) (pid : PeerID)
    (hb : req.body = some body)
    (hv : verifyRequest env req.header body.marshalled = .ok pid)
    (hck : checkServiceKey env body.threadID body.serviceKey = .ok ()) :
    (∀ e, env.headsEdge body.threadID = .ok e →
       env.computeHeadsEdge (reqLogHeads body) = e →
       GetRecords env req = (.ok {}, {})) ∧
    (∀ info, env.headsEdge body.threadID = .error .threadNotFound →
       env.getThread body.threadID = .ok info → info.logs = [] →
       GetRecords env req = (.ok {}, {})) := by
  constructor
  · intro e he heq
    have hhc : headsChanged env body = .ok false := by
      unfold headsChanged
      rw [he, heq]
      simp
    unfold GetRecords
    simp only [hb, hv, hck, hhc]
  · intro info he hgt hlogs
    have hhc : headsChanged env body = .ok true := by
      unfold headsChanged
      rw [he]
    unfold GetRecords
    simp only [hb, hv, hck, hhc, hgt, hlogs]
    simp

def envFastEq : Env := { envBase with computeHeadsEdge := fun _ => 9 }

def envHeadsMissing : Env :=
  { envBase with headsEdge := fun _ => .error .threadNotFound }

def getRecordsBody0 : GetRecordsBody :=
  { threadID := 3, serviceKey := some [1, 2, 3], logs := [], marshalled := .ok [0] }

def getRecordsReq0 : GetRecordsRequest :=
  { header := some hdr7, body := some getRecordsBody0 }

theorem getRecords_fast_path_witness :
    GetRecords envFastEq getRecordsReq0 = (.ok {}, {}) ∧
    GetRecords envHeadsMissing getRecordsReq0 = (.ok {}, {}) := by
  constructor
  · exact (getRecords_fast_path envFastEq getRecordsReq0 getRecordsBody0 7
      rfl rfl rfl).1 9 rfl rfl
  · exact (getRecords_fast_path envHeadsMissing getRecordsReq0 getRecordsBody0 7
      rfl rfl rfl).2 {} rfl rfl rfl

/-! ### C5 — PushLog -/

/-- C5: in a verified `PushLog`, a supplied service key is persisted iff
the thread has no service key locally; a supplied read key is persisted
iff the thread exists (has a service key) but is not readable; when no
service key exists and none is supplied the RPC fails NotFound; otherwise
the log is upserted via `createExternalLogsIfNotExist` and a low-priority
`updateRecordsFromPeer(caller, thread)` is scheduled on the get-records
queue before the empty reply. -/
theorem pushLog_spec (env : Env) (req : PushLogRequest) (body : PushLogBody)
    (pid : PeerID) (info : ThreadInfo)
    (hb : req.body = some body)
    (hv : verifyRequest env req.header body.marshalled = .ok pid)
    (hinfo : pushLogThreadInfo env body.threadID = .ok info) :
    (info.key.defined = false → body.serviceKey = none →
       PushLog env req = (.error (.grpc .notFound), {})) ∧
    (∀ sk, info.key.defined = false → body.serviceKey = some sk →
       env.addServiceKey body.threadID sk = .ok () →
       env.createExternalLogsIfNotExist body.threadID [logFromProto body.log] = .ok () →
       PushLog env req =
         (.ok {},
          { schedGetRecords := [(pid, body.threadID, .low, .updateRecordsFromPeer)],
            addedServiceKeys := [(body.threadID, sk)],
            createdLogs := [(body.threadID, [logFromProto body.log])] })) ∧
    (∀ rk, info.key.defined = true → info.key.canRead = false → body.readKey = some rk →
       env.addReadKey body.threadID rk = .ok () →
       env.createExternalLogsIfNotExist body.threadID [logFromProto body.log] = .ok () →
       PushLog env req =
         (.ok {},
          { schedGetRecords := [(pid, body.threadID, .low, .updateRecordsFromPeer)],
            addedReadKeys := [(body.threadID, rk)],
            createdLogs := [(body.threadID, [logFromProto body.log])] })) ∧
    (info.key.defined = true → (info.key.canRead = true ∨ body.readKey = none) →
       env.createExternalLogsIfNotExist body.threadID [logFromProto body.log] = .ok () →
       PushLog env req =
         (.ok {},
          { schedGetRecords := [(pid, body.threadID, .low, .updateRecordsFromPeer)],
            createdLogs := [(body.threadID, [logFromProto body.log])] })) := by
  refine ⟨?_, ?_, ?_, ?_⟩
  · intro hdef hsk
    have hup : pushLogKeyUptake env body.threadID body info = (.error (.grpc .notFound), {}) := by
      simp [pushLogKeyUptake, hdef, hsk]
    unfold PushLog
    simp only [hb, hv, hinfo, hup]
  · intro sk hdef hsk hadd hcreate
    have hup : pushLogKeyUptake env body.threadID body info =
        (.ok (), { addedServiceKeys := [(body.threadID, sk)] }) := by
      simp [pushLogKeyUptake, hdef, hsk, hadd]
    unfold PushLog
    simp only [hb, hv, hinfo, hup, hcreate]
    rfl
  · intro rk hdef hread hrk hadd hcreate
    have hup : pushLogKeyUptake env body.threadID body info =
        (.ok (), { addedReadKeys := [(body.threadID, rk)] }) := by
      simp [pushLogKeyUptake, hdef, hread, hrk, hadd]
    unfold PushLog
    simp only [hb, hv, hinfo, hup, hcreate]
    rfl
  · intro hdef hcase hcreate
    have hup : pushLogKeyUptake env body.threadID body info = (.ok (), {}) := by
      rcases hcase with hread | hrk
      · simp [pushLogKeyUptake, hdef, hread]
      · by_cases hread : info.key.canRead
        · simp [pushLogKeyUptake, hdef, hread]
        · simp [pushLogKeyUptake, hdef, hread, hrk]
    unfold PushLog
    simp only [hb, hv, hinfo, hup, hcreate]
    rfl

def pbLog1 : PBLog := { id := 1, pubKey := 5, addrs := [], head := none }

def pushLogBodyNoKeys : PushLogBody :=
  { threadID := 3, log := pbLog1, serviceKey := none, readKey := none, marshalled := .ok [2] }

def pushLogBodySk : PushLogBody :=
  { threadID := 3, log := pbLog1, serviceKey := some [4], readKey := some [9], marshalled := .ok [2] }

def pushLogBodyRk : PushLogBody :=
  { threadID := 3, log := pbLog1, serviceKey := none, readKey := some [9], marshalled := .ok [2] }

def envThreadNoRead : Env :=
  { envBase with getThread := fun _ => .ok { key := { service := some [1, 2, 3] } } }

def envThreadReadable : Env :=
  { envBase with
    getThread := fun _ => .ok { key := { service := some [1, 2, 3], read := some [8] } } }

theorem pushLog_spec_witness :
    PushLog envBase { header := some hdr7, body := some pushLogBodyNoKeys } =
      (.error (.grpc .notFound), {}) ∧
    PushLog envBase { header := some hdr7, body := some pushLogBodySk } =
      (.ok {},
       { schedGetRecords := [(7, 3, .low, .updateRecordsFromPeer)],
         addedServiceKeys := [(3, [4])],
         createdLogs := [(3, [logFromProto pbLog1])] }) ∧
    PushLog envThreadNoRead { header := some hdr7, body := some pushLogBodyRk } =
      (.ok {},
       { schedGetRecords := [(7, 3, .low, .updateRecordsFromPeer)],
         addedReadKeys := [(3, [9])],
         createdLogs := [(3, [logFromProto pbLog1])] }) ∧
    PushLog envThreadReadable { header := some hdr7, body := some pushLogBodyRk } =
      (.ok {},
       { schedGetRecords := [(7, 3, .low, .updateRecordsFromPeer)],
         createdLogs := [(3, [logFromProto pbLog1])] }) := by
  refine ⟨?_, ?_, ?_, ?_⟩
  · exact (pushLog_spec envBase { header := some hdr7, body := some pushLogBodyNoKeys }
      pushLogBodyNoKeys 7 {} rfl rfl rfl).1 rfl rfl
  · exact (pushLog_spec envBase { header := some hdr7, body := some pushLogBodySk }
      pushLogBodySk 7 {} rfl rfl rfl).2.1 [4] rfl rfl rfl rfl
  · exact (pushLog_spec envThreadNoRead { header := some hdr7, body := some pushLogBodyRk }
      pushLogBodyRk 7 { key := { service := some [1, 2, 3] } } rfl rfl rfl).2.2.1
      [9] rfl rfl rfl rfl rfl
  · exact (pushLog_spec envThreadReadable { header := some hdr7, body := some pushLogBodyRk }
      pushLogBodyRk 7 { key := { service := some [1, 2, 3], read := some [8] } }
      rfl rfl rfl).2.2.2 rfl (Or.inl rfl) rfl

/-! ### Helper lemmas about the GetRecords per-log machinery -/

theorem logQueryParams_some (reqd : List ReqLogEntry) (lim : Nat) (lg : LogInfo)
    (opts : ReqLogEntry) (h : reqdLookup reqd lg.id = some opts) :
    logQueryParams reqd lim lg =
      { offset := opts.offset, limit := minInt opts.limit lim, pblg := none } := by
  unfold logQueryParams
  rw [h]

theorem logQueryParams_none (reqd : List ReqLogEntry) (lim : Nat) (lg : LogInfo)
    (h : reqdLookup reqd lg.id = none) :
    logQueryParams reqd lim lg =
      { offset := none, limit := lim, pblg := some (logToProto lg) } := by
  unfold logQueryParams
  rw [h]

theorem getRecordsLogStep_statuses (env : Env) (pid : PeerID) (tid : ThreadID)
    (reqd : List ReqLogEntry) (lim : Nat) (lg : LogInfo) :
    (getRecordsLogStep env pid tid reqd lim lg).2.2.statuses = [] := by
  unfold getRecordsLogStep
  rcases hf : env.getLocalRecords tid lg.id (logQueryParams reqd lim lg).offset
      (logQueryParams reqd lim lg).limit with e | recs
  · simp only [hf]
    rcases hp : (logQueryParams reqd lim lg).pblg with _ | l <;>
      by_cases he : e = Err.offsetMissing <;>
        simp [hp, he]
  · simp only [hf]
    rcases hc : convertRecords env recs with ⟨prs, cf⟩
    simp only [hc]
    by_cases hcond : (logQueryParams reqd lim lg).pblg = none ∧ prs = [] <;>
      simp [hcond]

theorem getRecordsLogStep_fetchCalls (env : Env) (pid : PeerID) (tid : ThreadID)
    (reqd : List ReqLogEntry) (lim : Nat) (lg : LogInfo) :
    (getRecordsLogStep env pid tid reqd lim lg).2.2.fetchCalls =
      [(tid, lg.id, (logQueryParams reqd lim lg).offset, (logQueryParams reqd lim lg).limit)] := by
  unfold getRecordsLogStep
  rcases hf : env.getLocalRecords tid lg.id (logQueryParams reqd lim lg).offset
      (logQueryParams reqd lim lg).limit with e | recs
  · simp only [hf]
    rcases hp : (logQueryParams reqd lim lg).pblg with _ | l <;>
      by_cases he : e = Err.offsetMissing <;>
        simp [hp, he]
  · simp only [hf]
    rcases hc : convertRecords env recs with ⟨prs, cf⟩
    simp only [hc]
    by_cases hcond : (logQueryParams reqd lim lg).pblg = none ∧ prs = [] <;>
      simp [hcond]

theorem getRecordsLogStep_fail_fetch (env : Env) (pid : PeerID) (tid : ThreadID)
    (reqd : List ReqLogEntry) (lim : Nat) (lg : LogInfo) (e : Err)
    (hf : env.getLocalRecords tid lg.id (logQueryParams reqd lim lg).offset
        (logQueryParams reqd lim lg).limit = .error e) :
    (getRecordsLogStep env pid tid reqd lim lg).2.1 = 1 := by
  unfold getRecordsLogStep
  simp only [hf]
  rcases hp : (logQueryParams reqd lim lg).pblg with _ | l <;> simp [hp]

theorem getRecordsLogStep_fail_conv (env : Env) (pid : PeerID) (tid : ThreadID)
    (reqd : List ReqLogEntry) (lim : Nat) (lg : LogInfo) (recs : List Rec)
    (prs : List LogRecord)
    (hf : env.getLocalRecords tid lg.id (logQueryParams reqd lim lg).offset
        (logQueryParams reqd lim lg).limit = .ok recs)
    (hc : convertRecords env recs = (prs, true)) :
    (getRecordsLogStep env pid tid reqd lim lg).2.1 = 1 := by
  unfold getRecordsLogStep
  simp only [hf, hc]
  by_cases hcond : (logQueryParams reqd lim lg).pblg = none ∧ prs = [] <;> simp [hcond]

theorem getRecordsLogStep_sched_offsetMissing (env : Env) (pid : PeerID)
    (tid : ThreadID) (reqd : List ReqLogEntry) (lim : Nat) (lg : LogInfo)
    (hf : env.getLocalRecords tid lg.id (logQueryParams reqd lim lg).offset
        (logQueryParams reqd lim lg).limit = .error .offsetMissing) :
    (pid, tid, Priority.high, FnId.updateRecordsFromPeer) ∈
      (getRecordsLogStep env pid tid reqd lim lg).2.2.schedGetRecords := by
  unfold getRecordsLogStep
  simp only [hf]
  rcases hp : (logQueryParams reqd lim lg).pblg with _ | l <;> simp [hp, Effects.app]

theorem getRecordsLogStep_entry_ok (env : Env) (pid : PeerID) (tid : ThreadID)
    (reqd : List ReqLogEntry) (lim : Nat) (lg : LogInfo) (recs : List Rec)
    (prs : List LogRecord) (b : Bool)
    (hf : env.getLocalRecords tid lg.id (logQueryParams reqd lim lg).offset
        (logQueryParams reqd lim lg).limit = .ok recs)
    (hc : convertRecords env recs = (prs, b))
    (hne : ¬((logQueryParams reqd lim lg).pblg = none ∧ prs = [])) :
    (getRecordsLogStep env pid tid reqd lim lg).1 =
      some { logID := lg.id, records := prs, log := (logQueryParams reqd lim lg).pblg } := by
  unfold getRecordsLogStep
  simp only [hf, hc]
  rw [if_neg hne]

theorem getRecordsLogStep_entry_err (env : Env) (pid : PeerID) (tid : ThreadID)
    (reqd : List ReqLogEntry) (lim : Nat) (lg : LogInfo) (e : Err) (l : PBLog)
    (hf : env.getLocalRecords tid lg.id (logQueryParams reqd lim lg).offset
        (logQueryParams reqd lim lg).limit = .error e)
    (hp : (logQueryParams reqd lim lg).pblg = some l) :
    (getRecordsLogStep env pid tid reqd lim lg).1 =
      some { logID := lg.id, records := [], log := some l } := by
  unfold getRecordsLogStep
  simp only [hf, hp]

theorem getRecordsLogStep_omit_empty (env : Env) (pid : PeerID) (tid : ThreadID)
    (reqd : List ReqLogEntry) (lim : Nat) (lg : LogInfo) (recs : List Rec) (b : Bool)
    (hf : env.getLocalRecords tid lg.id (logQueryParams reqd lim lg).offset
        (logQueryParams reqd lim lg).limit = .ok recs)
    (hc : convertRecords env recs = ([], b))
    (hp : (logQueryParams reqd lim lg).pblg = none) :
    (getRecordsLogStep env pid tid reqd lim lg).1 = none := by
  unfold getRecordsLogStep
  simp only [hf, hc]
  rw [if_pos (by exact ⟨hp, trivial⟩)]

theorem getRecordsLogStep_omit_err (env : Env) (pid : PeerID) (tid : ThreadID)
    (reqd : List ReqLogEntry) (lim : Nat) (lg : LogInfo) (e : Err)
    (hf : env.getLocalRecords tid lg.id (logQueryParams reqd lim lg).offset
        (logQueryParams reqd lim lg).limit = .error e)
    (hp : (logQueryParams reqd lim lg).pblg = none) :
    (getRecordsLogStep env pid tid reqd lim lg).1 = none := by
  unfold getRecordsLogStep
  simp only [hf, hp]

theorem getRecordsLoop_statuses (env : Env) (pid : PeerID) (tid : ThreadID)
    (reqd : List ReqLogEntry) (lim : Nat) (logs : List LogInfo) :
    (getRecordsLoop env pid tid reqd lim logs).2.2.statuses = [] := by
  induction logs with
  | nil => rfl
  | cons lg rest ih =>
    show ((getRecordsLogStep env pid tid reqd lim lg).2.2 ++
        (getRecordsLoop env pid tid reqd lim rest).2.2).statuses = []
    rw [Effects.app_statuses, getRecordsLogStep_statuses, ih]
    rfl

theorem getRecordsLoop_fail_le (env : Env) (pid : PeerID) (tid : ThreadID)
    (reqd : List ReqLogEntry) (lim : Nat) (logs : List LogInfo) (lg : LogInfo)
    (hmem : lg ∈ logs) :
    (getRecordsLogStep env pid tid reqd lim lg).2.1 ≤
      (getRecordsLoop env pid tid reqd lim logs).2.1 := by
  induction logs with
  | nil => cases hmem
  | cons x rest ih =>
    have hloop : (getRecordsLoop env pid tid reqd lim (x :: rest)).2.1 =
        (getRecordsLogStep env pid tid reqd lim x).2.1 +
          (getRecordsLoop env pid tid reqd lim rest).2.1 := rfl
    rcases List.mem_cons.mp hmem with h | h
    · subst h
      rw [hloop]
      exact Nat.le_add_right _ _
    · rw [hloop]
      exact Nat.le_trans (ih h) (Nat.le_add_left _ _)

theorem getRecordsLoop_mem_entry (env : Env) (pid : PeerID) (tid : ThreadID)
    (reqd : List ReqLogEntry) (lim : Nat) (logs : List LogInfo) (lg : LogInfo)
    (entry : ReplyEntry) (hmem : lg ∈ logs)
    (hstep : (getRecordsLogStep env pid tid reqd lim lg).1 = some entry) :
    entry ∈ (getRecordsLoop env pid tid reqd lim logs).1 := by
  induction logs with
  | nil => cases hmem
  | cons x rest ih =>
    have hloop : (getRecordsLoop env pid tid reqd lim (x :: rest)).1 =
        (getRecordsLogStep env pid tid reqd lim x).1.toList ++
          (getRecordsLoop env pid tid reqd lim rest).1 := rfl
    rcases List.mem_cons.mp hmem with h | h
    · subst h
      rw [hloop, hstep]
      exact List.mem_append_left _ (List.mem_singleton_self _)
    · rw [hloop]
      exact List.mem_append_right _ (ih h)

theorem getRecordsLoop_mem_sched (env : Env) (pid : PeerID) (tid : ThreadID)
    (reqd : List ReqLogEntry) (lim : Nat) (logs : List LogInfo) (lg : LogInfo)
    (x : PeerID × ThreadID × Priority × FnId) (hmem : lg ∈ logs)
    (hstep : x ∈ (getRecordsLogStep env pid tid reqd lim lg).2.2.schedGetRecords) :
    x ∈ (getRecordsLoop env pid tid reqd lim logs).2.2.schedGetRecords := by
  induction logs with
  | nil => cases hmem
  | cons y rest ih =>
    have hloop : (getRecordsLoop env pid tid reqd lim (y :: rest)).2.2.schedGetRecords =
        (getRecordsLogStep env pid tid reqd lim y).2.2.schedGetRecords ++
          (getRecordsLoop env pid tid reqd lim rest).2.2.schedGetRecords := rfl
    rcases List.mem_cons.mp hmem with h | h
    · subst h
      rw [hloop]
      exact List.mem_append_left _ hstep
    · rw [hloop]
      exact List.mem_append_right _ (ih h)

theorem getRecordsLoop_mem_fetch (env : Env) (pid : PeerID) (tid : ThreadID)
    (reqd : List ReqLogEntry) (lim : Nat) (logs : List LogInfo) (lg : LogInfo)
    (x : ThreadID × LogID × Option Nat × Nat) (hmem : lg ∈ logs)
    (hstep : x ∈ (getRecordsLogStep env pid tid reqd lim lg).2.2.fetchCalls) :
    x ∈ (getRecordsLoop env pid tid reqd lim logs).2.2.fetchCalls := by
  induction logs with
  | nil => cases hmem
  | cons y rest ih =>
    have hloop : (getRecordsLoop env pid tid reqd lim (y :: rest)).2.2.fetchCalls =
        (getRecordsLogStep env pid tid reqd lim y).2.2.fetchCalls ++
          (getRecordsLoop env pid tid reqd lim rest).2.2.fetchCalls := rfl
    rcases List.mem_cons.mp hmem with h | h
    · subst h
      rw [hloop]
      exact List.mem_append_left _ hstep
    · rw [hloop]
      exact List.mem_append_right _ (ih h)

/-- Under the non-fast-path hypotheses, `GetRecords` is the loop over the
local logs with per-log limit `MaxPullLimit / numLogs`, plus the
`UploadDone` emission when the registry is present and nothing failed. -/
theorem GetRecords_loop_unfold (env : Env) (req : GetRecordsRequest)
    (body : GetRecordsBody) (pid : PeerID) (info : ThreadInfo) (lim : Nat)
    (L : List ReplyEntry) (f : Nat) (E : Effects)
    (hb : req.body = some body)
    (hv : verifyRequest env req.header body.marshalled = .ok pid)
    (hck : checkServiceKey env body.threadID body.serviceKey = .ok ())
    (hhc : headsChanged env body = .ok true)
    (hgt : env.getThread body.threadID = .ok info)
    (hne : info.logs ≠ [])
    (hlim : lim = env.maxPullLimit / info.logs.length)
    (hr : getRecordsLoop env pid body.threadID body.logs lim info.logs = (L, f, E)) :
    GetRecords env req =
      if env.tStatPresent && (f == 0) then
        (.ok { logs := L }, E ++ { statuses := [(pid, body.threadID, .uploadDone)] })
      else (.ok { logs := L }, E) := by
  subst hlim
  unfold GetRecords
  simp only [hb, hv, hck, hhc, hgt]
  rw [if_neg hne, hr]

/-! ### C7 — GetRecords failure accounting and UploadDone emission -/

/-- C7: after the per-log fan-out of `GetRecords` joins, `UploadDone` is
emitted for (caller, thread) iff the registry is present and the failure
count is zero; a per-log fetch error or a record-conversion failure makes
the failure count nonzero (suppressing the emit) while entries of
successful logs are still part of the reply; a fetch failing with the
offset-missing error additionally schedules a high-priority
`updateRecordsFromPeer(caller, thread)`. -/
theorem getRecords_failure_accounting (env : Env) (req : GetRecordsRequest)
    (body : GetRecordsBody) (pid : PeerID) (info : ThreadInfo) (lim : Nat)
    (L : List ReplyEntry) (f : Nat) (E : Effects)
    (hb : req.body = some body)
    (hv : verifyRequest env req.header body.marshalled = .ok pid)
    (hck : checkServiceKey env body.threadID body.serviceKey = .ok ())
    (hhc : headsChanged env body = .ok true)
    (hgt : env.getThread body.threadID = .ok info)
    (hne : info.logs ≠ [])
    (hlim : lim = env.maxPullLimit / info.logs.length)
    (hr : getRecordsLoop env pid body.threadID body.logs lim info.logs = (L, f, E)) :
    ((GetRecords env req).1 = .ok { logs := L }) ∧
    ((GetRecords env req).2.statuses =
       if env.tStatPresent && (f == 0) then [(pid, body.threadID, .uploadDone)] else []) ∧
    (∀ lg e, lg ∈ info.logs →
       env.getLocalRecords body.threadID lg.id (logQueryParams body.logs lim lg).offset
         (logQueryParams body.logs lim lg).limit = .error e → f ≠ 0) ∧
    (∀ lg recs prs, lg ∈ info.logs →
       env.getLocalRecords body.threadID lg.id (logQueryParams body.logs lim lg).offset
         (logQueryParams body.logs lim lg).limit = .ok recs →
       convertRecords env recs = (prs, true) → f ≠ 0) ∧
    (∀ lg recs prs b, lg ∈ info.logs →
       env.getLocalRecords body.threadID lg.id (logQueryParams body.logs lim lg).offset
         (logQueryParams body.logs lim lg).limit = .ok recs →
       convertRecords env recs = (prs, b) →
       ¬((logQueryParams body.logs lim lg).pblg = none ∧ prs = []) →
       { logID := lg.id, records := prs, log := (logQueryParams body.logs lim lg).pblg } ∈ L) ∧
    (∀ lg, lg ∈ info.logs →
       env.getLocalRecords body.threadID lg.id (logQueryParams body.logs lim lg).offset
         (logQueryParams body.logs lim lg).limit = .error .offsetMissing →
       (pid, body.threadID, Priority.high, FnId.updateRecordsFromPeer) ∈
         (GetRecords env req).2.schedGetRecords) := by
  have hglue := GetRecords_loop_unfold env req body pid info lim L f E
    hb hv hck hhc hgt hne hlim hr
  have hE : E.statuses = [] := by
    have h := getRecordsLoop_statuses env pid body.threadID body.logs lim info.logs
    rw [hr] at h
    exact h
  refine ⟨?_, ?_, ?_, ?_, ?_, ?_⟩
  · rw [hglue]
    by_cases hc : env.tStatPresent && (f == 0) <;> simp [hc]
  · rw [hglue]
    by_cases hc : env.tStatPresent && (f == 0) <;> simp [hc, hE]
  · intro lg e hmem hf
    have h1 := getRecordsLogStep_fail_fetch env pid body.threadID body.logs lim lg e hf
    have h2 := getRecordsLoop_fail_le env pid body.threadID body.logs lim info.logs lg hmem
    rw [hr, h1] at h2
    have h3 : 1 ≤ f := h2
    omega
  · intro lg recs prs hmem hf hc
    have h1 := getRecordsLogStep_fail_conv env pid body.threadID body.logs lim lg recs prs hf hc
    have h2 := getRecordsLoop_fail_le env pid body.threadID body.logs lim info.logs lg hmem
    rw [hr, h1] at h2
    have h3 : 1 ≤ f := h2
    omega
  · intro lg recs prs b hmem hf hc hcc
    have h1 := getRecordsLogStep_entry_ok env pid body.threadID body.logs lim lg recs prs b hf hc hcc
    have h2 := getRecordsLoop_mem_entry env pid body.threadID body.logs lim info.logs lg
      _ hmem h1
    rw [hr] at h2
    exact h2
  · intro lg hmem hf
    have h1 := getRecordsLogStep_sched_offsetMissing env pid body.threadID body.logs lim lg hf
    have h2 := getRecordsLoop_mem_sched env pid body.threadID body.logs lim info.logs lg
      _ hmem h1
    rw [hr] at h2
    rw [hglue]
    by_cases hc : env.tStatPresent && (f == 0) <;> simp [hc] <;> exact h2

/-! ### C8 — GetRecords per-log offsets, limits and reply shaping -/

/-- C8: when the fast path does not apply and there are local logs, each
local log is fetched with limit at most `MaxPullLimit / numLogs` (Nat
division, i.e. the floor): a log included in the request is fetched at
the caller's offset with limit `min(callerLimit, perLogLimit)`, a log
absent from the request is fetched at the undefined offset with the full
per-log limit and its descriptor is attached to the reply entry (which is
present even when the fetch fails); and a requested log yielding zero
converted records is omitted from the reply. -/
theorem getRecords_per_log_limits (env : Env) (req : GetRecordsRequest)
    (body : GetRecordsBody) (pid : PeerID) (info : ThreadInfo) (lim : Nat)
    (L : List ReplyEntry) (f : Nat) (E : Effects)
    (hb : req.body = some body)
    (hv : verifyRequest env req.header body.marshalled = .ok pid)
    (hck : checkServiceKey env body.threadID body.serviceKey = .ok ())
    (hhc : headsChanged env body = .ok true)
    (hgt : env.getThread body.threadID = .ok info)
    (hne : info.logs ≠ [])
    (hlim : lim = env.maxPullLimit / info.logs.length)
    (hr : getRecordsLoop env pid body.threadID body.logs lim info.logs = (L, f, E)) :
    ((GetRecords env req).1 = .ok { logs := L }) ∧
    (∀ lg opts, lg ∈ info.logs → reqdLookup body.logs lg.id = some opts →
       (body.threadID, lg.id, opts.offset, minInt opts.limit lim) ∈
         (GetRecords env req).2.fetchCalls) ∧
    (∀ lg, lg ∈ info.logs → reqdLookup body.logs lg.id = none →
       (body.threadID, lg.id, (none : Option Nat), lim) ∈ (GetRecords env req).2.fetchCalls) ∧
    (∀ lg e, lg ∈ info.logs → reqdLookup body.logs lg.id = none →
       env.getLocalRecords body.threadID lg.id none lim = .error e →
       { logID := lg.id, records := [], log := some (logToProto lg) } ∈ L) ∧
    (∀ lg recs prs b, lg ∈ info.logs → reqdLookup body.logs lg.id = none →
       env.getLocalRecords body.threadID lg.id none lim = .ok recs →
       convertRecords env recs = (prs, b) →
       { logID := lg.id, records := prs, log := some (logToProto lg) } ∈ L) ∧
    (∀ lg opts recs b, reqdLookup body.logs lg.id = some opts →
       env.getLocalRecords body.threadID lg.id opts.offset (minInt opts.limit lim) = .ok recs →
       convertRecords env recs = ([], b) →
       (getRecordsLogStep env pid body.threadID body.logs lim lg).1 = none) ∧
    (∀ lg opts e, reqdLookup body.logs lg.id = some opts →
       env.getLocalRecords body.threadID lg.id opts.offset (minInt opts.limit lim) = .error e →
       (getRecordsLogStep env pid body.threadID body.logs lim lg).1 = none) := by
  have hglue := GetRecords_loop_unfold env req body pid info lim L f E
    hb hv hck hhc hgt hne hlim hr
  have hfetch : (GetRecords env req).2.fetchCalls = E.fetchCalls := by
    rw [hglue]
    by_cases hc : env.tStatPresent && (f == 0) <;> simp [hc]
  refine ⟨?_, ?_, ?_, ?_, ?_, ?_, ?_⟩
  · rw [hglue]
    by_cases hc : env.tStatPresent && (f == 0) <;> simp [hc]
  · intro lg opts hmem hq
    have hqp := logQueryParams_some body.logs lim lg opts hq
    have h1 := getRecordsLogStep_fetchCalls env pid body.threadID body.logs lim lg
    rw [hqp] at h1
    have h2 := getRecordsLoop_mem_fetch env pid body.threadID body.logs lim info.logs lg
      (body.threadID, lg.id, opts.offset, minInt opts.limit lim) hmem (by rw [h1]; simp)
    rw [hr] at h2
    rw [hfetch]
    exact h2
  · intro lg hmem hq
    have hqp := logQueryParams_none body.logs lim lg hq
    have h1 := getRecordsLogStep_fetchCalls env pid body.threadID body.logs lim lg
    rw [hqp] at h1
    have h2 := getRecordsLoop_mem_fetch env pid body.threadID body.logs lim info.logs lg
      (body.threadID, lg.id, none, lim) hmem (by rw [h1]; simp)
    rw [hr] at h2
    rw [hfetch]
    exact h2
  · intro lg e hmem hq hf
    have hqp := logQueryParams_none body.logs lim lg hq
    have h1 := getRecordsLogStep_entry_err env pid body.threadID body.logs lim lg e
      (logToProto lg) (by rw [hqp]; exact hf) (by rw [hqp])
    have h2 := getRecordsLoop_mem_entry env pid body.threadID body.logs lim info.logs lg
      _ hmem h1
    rw [hr] at h2
    exact h2
  · intro lg recs prs b hmem hq hf hc
    have hqp := logQueryParams_none body.logs lim lg hq
    have h1 := getRecordsLogStep_entry_ok env pid body.threadID body.logs lim lg recs prs b
      (by rw [hqp]; exact hf) hc (by rw [hqp]; rintro ⟨h, -⟩; cases h)
    rw [hqp] at h1
    have h2 := getRecordsLoop_mem_entry env pid body.threadID body.logs lim info.logs lg
      _ hmem h1
    rw [hr] at h2
    exact h2
  · intro lg opts recs b hq hf hc
    have hqp := logQueryParams_some body.logs lim lg opts hq
    exact getRecordsLogStep_omit_empty env pid body.threadID body.logs lim lg recs b
      (by rw [hqp]; exact hf) hc (by rw [hqp])
  · intro lg opts e hq hf
    have hqp := logQueryParams_some body.logs lim lg opts hq
    exact getRecordsLogStep_omit_err env pid body.threadID body.logs lim lg e
      (by rw [hqp]; exact hf) (by rw [hqp])

/-! ### Witness material for C7/C8 -/

def logA : LogInfo := { id := 1, pubKey := 1, addrs := [], head := some 5 }

def logB : LogInfo := { id := 2, pubKey := 2, addrs := [], head := some 6 }

def envTwoLogs : Env :=
  { envBase with
    getThread := fun _ => .ok { key := { service := some [1, 2, 3] }, logs := [logA, logB] }
    computeHeadsEdge := fun _ => 8
    getLocalRecords := fun _ lid _ _ =>
      if lid == 1 then .ok [{ cid := 21 }] else .error .offsetMissing }

def grBody1 : GetRecordsBody :=
  { threadID := 3, serviceKey := some [1, 2, 3]
    logs := [{ logID := 1, offset := some 5, limit := 3 }], marshalled := .ok [0] }

def grReq1 : GetRecordsRequest := { header := some hdr7, body := some grBody1 }

def envEmptyFetch : Env := { envTwoLogs with getLocalRecords := fun _ _ _ _ => .ok [] }

def twoLogsL : List ReplyEntry :=
  [{ logID := 1, records := [{ recordNode := 21, eventNode := 0, headerNode := 0, bodyNode := 0 }],
     log := none },
   { logID := 2, records := [], log := some { id := 2, pubKey := 2, addrs := [], head := some 6 } }]

def twoLogsE : Effects :=
  { schedGetRecords := [(7, 3, .high, .updateRecordsFromPeer)]
    fetchCalls := [(3, 1, some 5, 3), (3, 2, none, 5)] }

theorem getRecords_failure_accounting_witness :
    (GetRecords envTwoLogs grReq1).2.statuses = [] ∧
    ((7, 3, Priority.high, FnId.updateRecordsFromPeer) ∈
      (GetRecords envTwoLogs grReq1).2.schedGetRecords) ∧
    ({ logID := 1,
       records := [{ recordNode := 21, eventNode := 0, headerNode := 0, bodyNode := 0 }],
       log := none } : ReplyEntry) ∈ twoLogsL := by
  have h := getRecords_failure_accounting envTwoLogs grReq1 grBody1 7
    { key := { service := some [1, 2, 3] }, logs := [logA, logB] } 5 twoLogsL 1 twoLogsE
    rfl rfl rfl rfl rfl (by simp) rfl rfl
  refine ⟨h.2.1.trans rfl, ?_, ?_⟩
  · exact h.2.2.2.2.2 logB (by simp) rfl
  · exact h.2.2.2.2.1 logA [{ cid := 21 }]
      [{ recordNode := 21, eventNode := 0, headerNode := 0, bodyNode := 0 }] false
      (by simp) rfl rfl (by simp)

def emptyFetchL : List ReplyEntry :=
  [{ logID := 2, records := [], log := some { id := 2, pubKey := 2, addrs := [], head := some 6 } }]

def emptyFetchE : Effects :=
  { fetchCalls := [(3, 1, some 5, 3), (3, 2, none, 5)] }

theorem getRecords_per_log_limits_witness :
    ((3, 1, some 5, 3) ∈ (GetRecords envTwoLogs grReq1).2.fetchCalls) ∧
    ((3, 2, (none : Option Nat), 5) ∈ (GetRecords envTwoLogs grReq1).2.fetchCalls) ∧
    (({ logID := 2, records := [],
        log := some { id := 2, pubKey := 2, addrs := [], head := some 6 } } : ReplyEntry)
      ∈ twoLogsL) ∧
    (getRecordsLogStep envEmptyFetch 7 3 grBody1.logs 5 logA).1 = none := by
  have h := getRecords_per_log_limits envTwoLogs grReq1 grBody1 7
    { key := { service := some [1, 2, 3] }, logs := [logA, logB] } 5 twoLogsL 1 twoLogsE
    rfl rfl rfl rfl rfl (by simp) rfl rfl
  have h2 := getRecords_per_log_limits envEmptyFetch grReq1 grBody1 7
    { key := { service := some [1, 2, 3] }, logs := [logA, logB] } 5 emptyFetchL 0 emptyFetchE
    rfl rfl rfl rfl rfl (by simp) rfl rfl
  refine ⟨?_, ?_, ?_, ?_⟩
  · exact h.2.1 logA { logID := 1, offset := some 5, limit := 3 } (by simp) rfl
  · exact h.2.2.1 logB (by simp) rfl
  · exact h.2.2.2.1 logB .offsetMissing (by simp) rfl rfl
  · exact h2.2.2.2.2.2.1 logA { logID := 1, offset := some 5, limit := 3 } [] false rfl rfl rfl

end GoThreads
